import Mathlib

/-!
Shallow embedding of `src/valgrind.rs`: the Valgrind suppression-file data
model, the renderer (the `Show` impls) and the line-driven parser state
machine (`Suppressions::parse`), together with theorems checking the
specification's claims about them.

Strings are modelled as `List Char` so that every operation is executable
and kernel-reducible; `lit` injects Lean string literals.
-/

abbrev Str := List Char

def lit (s : String) : Str := s.data

/-- Unicode White_Space characters, as tested by Rust `char::is_whitespace`. -/
def isWs (c : Char) : Bool :=
  c = ' ' || c = '\t' || c = '\n' || c = '\r' || c = '\x0b' || c = '\x0c' ||
  c = '\u0085' || c = ' ' || c = ' ' ||
  (' ' ≤ c && c ≤ ' ') ||
  c = ' ' || c = ' ' || c = ' ' || c = ' ' || c = '　'

/-- Rust `str::trim_left` (now `trim_start`). -/
def trimLeft (s : Str) : Str := s.dropWhile isWs

/-- Rust `str::trim_right` (now `trim_end`). -/
def trimRight (s : Str) : Str := (s.reverse.dropWhile isWs).reverse

/-- Rust `str::trim`. -/
def trim (s : Str) : Str := trimRight (trimLeft s)

/-- Rust `str::find(':')` followed by `slice_to`/`slice_from(pos + 1)`:
split at the first colon, when one exists. -/
def splitFirstColon : Str → Option (Str × Str)
  | [] => none
  | c :: rest =>
    if c = ':' then some ([], rest)
    else match splitFirstColon rest with
      | none => none
      | some (a, b) => some (c :: a, b)

/-- Rust `str::split(',')`: the (always nonempty) list of parts between commas. -/
def splitComma : Str → List Str
  | [] => [[]]
  | c :: rest =>
    if c = ',' then [] :: splitComma rest
    else match splitComma rest with
      | [] => [[c]]
      | a :: as_ => (c :: a) :: as_

def isDigit (c : Char) : Bool := '0' ≤ c && c ≤ '9'

def digitsVal (s : Str) : Nat := s.foldl (fun n c => n * 10 + (c.toNat - 48)) 0

/-- Rust `from_str::<uint>`: a nonempty all-decimal-digit string parses to
its value, anything else gives `None`. -/
def from_str (s : Str) : Option Nat :=
  if !s.isEmpty && s.all isDigit then some (digitsVal s) else none

/-- Decimal rendering of a `uint`, as produced by the `{:u}` format. -/
def toDecimalAux : Nat → Nat → Str
  | 0, _ => []
  | fuel + 1, n =>
    if n < 10 then [Nat.digitChar n]
    else toDecimalAux fuel (n / 10) ++ [Nat.digitChar (n % 10)]

def toDecimal (n : Nat) : Str := toDecimalAux (n + 1) n

/-- Rust `Buffer::lines`: split the text after every newline (each line keeps
its terminating newline; a final newline-less fragment is yielded too). -/
def linesOfAux : Str → Str → List Str
  | acc, [] => if acc.isEmpty then [] else [acc.reverse]
  | acc, c :: rest =>
    if c = '\n' then (acc.reverse ++ ['\n']) :: linesOfAux [] rest
    else linesOfAux (c :: acc) rest

def linesOf (s : Str) : List Str := linesOfAux [] s

deriving instance DecidableEq for Except

/-! ## Data model (`ParseError`, `Frame`, `SuppressionType`, `Suppression`, `Suppressions`) -/

/-- `pub struct ParseError` — line number plus message of a parse error. -/
structure ParseError where
  lineno : Nat
  message : Str
deriving DecidableEq, Repr

/-- `pub enum Frame`. -/
inductive Frame
  | FrameWildcard
  | ObjFrame (glob : Str)
  | FunFrame (glob : Str)
deriving DecidableEq, Repr

/-- `pub enum SuppressionType`. -/
inductive SuppressionType
  | MemcheckAddr (n : Nat)
  | MemcheckCond
  | MemcheckFree
  | MemcheckLeak
  | MemcheckOverlap
  | MemcheckParam
  | MemcheckValue (n : Nat)
  | OtherType (tool_name : Str) (suppression_type : Str)
deriving DecidableEq, Repr

open Frame SuppressionType

/-- `pub struct Suppression`. -/
structure Suppression where
  name : Str
  type_ : SuppressionType
  opt_extra_info : Option (List Str)
  frames : List Frame
deriving DecidableEq, Repr

/-- `pub struct Suppressions`. -/
structure Suppressions where
  suppressions_ : List Suppression
deriving DecidableEq, Repr

/-! ## Renderer (the `Show` impls) -/

/-- `impl Show for Frame`. -/
def showFrame : Frame → Str
  | FrameWildcard => lit "..."
  | ObjFrame glob => lit "obj:" ++ glob
  | FunFrame glob => lit "fun:" ++ glob

/-- `impl Show for SuppressionType`. -/
def showSuppressionType : SuppressionType → Str
  | MemcheckAddr n => lit "Memcheck:Addr" ++ toDecimal n
  | MemcheckCond => lit "Memcheck:Cond"
  | MemcheckFree => lit "Memcheck:Free"
  | MemcheckLeak => lit "Memcheck:Leak"
  | MemcheckOverlap => lit "Memcheck:Overlap"
  | MemcheckParam => lit "Memcheck:Param"
  | MemcheckValue n => lit "Memcheck:Value" ++ toDecimal n
  | OtherType tool_name suppression_type =>
    '?' :: (tool_name ++ ':' :: suppression_type)

/-- `impl Show for Suppression`: `writeln!` of the opening brace, then the
name, the type, each extra-info line and each frame indented by three
spaces, then `write!` of the closing brace (no trailing newline). -/
def showSuppression (s : Suppression) : Str :=
  (lit "\x7b" ++ ['\n'])
  ++ (lit "   " ++ s.name ++ ['\n'])
  ++ (lit "   " ++ showSuppressionType s.type_ ++ ['\n'])
  ++ (match s.opt_extra_info with
      | none => []
      | some extra_info =>
        (extra_info.map (fun line => lit "   " ++ line ++ ['\n'])).flatten)
  ++ (s.frames.map (fun frame => lit "   " ++ showFrame frame ++ ['\n'])).flatten
  ++ lit "\x7d"

/-- `impl Show for Suppressions`: each suppression on a `writeln!` of its own. -/
def showSuppressions (s : Suppressions) : Str :=
  (s.suppressions_.map (fun sup => showSuppression sup ++ ['\n'])).flatten

/-! ## Parser (`Suppressions::parse`) -/

/-- `enum ParseState` — the parser's state machine states. -/
inductive ParseState
  | BeforeOpeningBrace
  | AfterOpeningBrace (opening_brace_lineno : Nat)
  | HaveName (opening_brace_lineno : Nat) (name : Str)
  | HaveSuppressionType (opening_brace_lineno : Nat) (name : Str)
      (tool_names : List Str) (suppression_type : Str)
      (opt_extra_info : Option (List Str))
  | HaveOptExtraInfo (opening_brace_lineno : Nat) (name : Str)
      (tool_names : List Str) (suppression_type : Str)
      (opt_extra_info : Option (List Str)) (frames : List Frame)
deriving DecidableEq, Repr

open ParseState

/-- Resolution of the suppression type at block end: the body of the
`tool_names.iter().map(...)` closure in `Suppressions::parse`. -/
def resolveType (tool_name : Str) (suppression_type : Str) : SuppressionType :=
  if tool_name = lit "Memcheck" then
    if (lit "Addr").isPrefixOf suppression_type then
      match from_str (suppression_type.drop 4) with
      | none => OtherType tool_name suppression_type
      | some n => MemcheckAddr n
    else if suppression_type = lit "Cond" then MemcheckCond
    else if suppression_type = lit "Free" then MemcheckFree
    else if suppression_type = lit "Leak" then MemcheckLeak
    else if suppression_type = lit "Overlap" then MemcheckOverlap
    else if suppression_type = lit "Param" then MemcheckParam
    else if (lit "Value").isPrefixOf suppression_type then
      match from_str (suppression_type.drop 5) with
      | none => OtherType tool_name suppression_type
      | some n => MemcheckValue n
    else OtherType tool_name suppression_type
  else OtherType tool_name suppression_type

/-- One iteration of the `for line_res in buf.lines()` loop body: the skip of
blank/`#` lines, then the `match state` transition. Returns the updated
accumulated suppressions and the next state, or the `ParseError` returned
from the loop. -/
def stepLine (suppressions : List Suppression) (state : ParseState)
    (lineno : Nat) (line : Str) :
    Except ParseError (List Suppression × ParseState) :=
  let trimmed_line := trim line
  if trimmed_line.isEmpty || (lit "#").isPrefixOf trimmed_line then
    .ok (suppressions, state)
  else
    match state with
    | BeforeOpeningBrace =>
      if trimmed_line = lit "\x7b" then
        .ok (suppressions, AfterOpeningBrace lineno)
      else if (lit "\x7b").isPrefixOf trimmed_line then
        .error ⟨lineno, lit "expecting an opening brace on its own line"⟩
      else
        .error ⟨lineno, lit "expecting an opening brace"⟩
    | AfterOpeningBrace opening_brace_lineno =>
      if trimmed_line = lit "\x7d" then
        .ok (suppressions, BeforeOpeningBrace)
      else if trimmed_line.contains '\x7d' then
        .error ⟨lineno,
          lit "the suppression name cannot contain a closing brace \x27\x7d\x27"⟩
      else
        .ok (suppressions, HaveName opening_brace_lineno trimmed_line)
    | HaveName opening_brace_lineno name =>
      match splitFirstColon trimmed_line with
      | none => .error ⟨lineno, lit "no suppression type was found"⟩
      | some (before_colon, after_colon) =>
        .ok (suppressions,
          HaveSuppressionType opening_brace_lineno name
            (splitComma before_colon) after_colon none)
    | HaveSuppressionType opening_brace_lineno name tool_names suppression_type
        opt_extra_info =>
      if trimmed_line = lit "..." then
        .ok (suppressions,
          HaveOptExtraInfo opening_brace_lineno name tool_names
            suppression_type opt_extra_info [FrameWildcard])
      else if (lit "obj:").isPrefixOf trimmed_line then
        .ok (suppressions,
          HaveOptExtraInfo opening_brace_lineno name tool_names
            suppression_type opt_extra_info
            [ObjFrame (trimLeft (trimmed_line.drop 4))])
      else if (lit "fun:").isPrefixOf trimmed_line then
        .ok (suppressions,
          HaveOptExtraInfo opening_brace_lineno name tool_names
            suppression_type opt_extra_info
            [ObjFrame (trimLeft (trimmed_line.drop 4))])
      else if trimmed_line = lit "\x7d" then
        -- "If there is no calling context for this suppression, then skip it."
        .ok (suppressions, BeforeOpeningBrace)
      else
        let extra_info := match opt_extra_info with
          | none => [trimmed_line]
          | some extra_info => extra_info ++ [trimmed_line]
        .ok (suppressions,
          HaveSuppressionType opening_brace_lineno name tool_names
            suppression_type (some extra_info))
    | HaveOptExtraInfo opening_brace_lineno name tool_names suppression_type
        opt_extra_info frames =>
      if trimmed_line = lit "..." then
        .ok (suppressions,
          HaveOptExtraInfo opening_brace_lineno name tool_names
            suppression_type opt_extra_info (frames ++ [FrameWildcard]))
      else if (lit "obj:").isPrefixOf trimmed_line then
        .ok (suppressions,
          HaveOptExtraInfo opening_brace_lineno name tool_names
            suppression_type opt_extra_info
            (frames ++ [ObjFrame (trimLeft (trimmed_line.drop 4))]))
      else if (lit "fun:").isPrefixOf trimmed_line then
        .ok (suppressions,
          HaveOptExtraInfo opening_brace_lineno name tool_names
            suppression_type opt_extra_info
            (frames ++ [FunFrame (trimLeft (trimmed_line.drop 4))]))
      else if trimmed_line = lit "\x7d" then
        .ok (suppressions ++ tool_names.map (fun tool_name =>
              { name := name,
                type_ := resolveType tool_name suppression_type,
                opt_extra_info := opt_extra_info,
                frames := frames }),
          BeforeOpeningBrace)
      else
        .error ⟨lineno, lit "invalid calling context line"⟩

/-- The `for` loop of `Suppressions::parse` over the remaining lines
(`lineno` counts the lines already consumed). -/
def parseLoop (suppressions : List Suppression) (state : ParseState)
    (lineno : Nat) : List Str → Except ParseError (List Suppression × ParseState)
  | [] => .ok (suppressions, state)
  | line :: rest =>
    match stepLine suppressions state (lineno + 1) line with
    | .error e => .error e
    | .ok (suppressions', state') => parseLoop suppressions' state' (lineno + 1) rest

/-- The EOF message used once the suppression's name is known. -/
def eofNamed (name : Str) : Str :=
  lit "unexpectedly encountered EOF while parsing the suppression named \x27"
    ++ name ++ lit "\x27"

/-- The `match state` performed after the loop, checking for EOF mid-block. -/
def eofCheck : ParseState → Option ParseError
  | BeforeOpeningBrace => none
  | AfterOpeningBrace opening_brace_lineno =>
    some ⟨opening_brace_lineno,
      lit "unexpectedly encountered EOF while parsing a suppression"⟩
  | HaveName opening_brace_lineno name => some ⟨opening_brace_lineno, eofNamed name⟩
  | HaveSuppressionType opening_brace_lineno name _ _ _ =>
    some ⟨opening_brace_lineno, eofNamed name⟩
  | HaveOptExtraInfo opening_brace_lineno name _ _ _ _ =>
    some ⟨opening_brace_lineno, eofNamed name⟩

/-- `Suppressions::parse`, over the pure line sequence read from the buffer. -/
def parse (ls : List Str) : Except ParseError Suppressions :=
  match parseLoop [] BeforeOpeningBrace 0 ls with
  | .error e => .error e
  | .ok (suppressions, state) =>
    match eofCheck state with
    | some e => .error e
    | none => .ok ⟨suppressions⟩

/-- `Suppressions::add_all`: `push_all` of `other`'s records onto `self`. -/
def add_all (self other : Suppressions) : Suppressions :=
  ⟨self.suppressions_ ++ other.suppressions_⟩

/-- `Suppressions::suppressions`: the iterator over the records, in order. -/
def suppressions (self : Suppressions) : List Suppression :=
  self.suppressions_

/-! ## Helper notions used by the theorems -/

/-- The extra-info lines, `none` flattened to the empty list. -/
def extraOf : Option (List Str) → List Str
  | none => []
  | some extra_info => extra_info

/-- The tool-name part of a rendered `SuppressionType` (before the colon). -/
def toolOf : SuppressionType → Str
  | OtherType tool_name _ => '?' :: tool_name
  | _ => lit "Memcheck"

/-- The category part of a rendered `SuppressionType` (after the colon). -/
def catOf : SuppressionType → Str
  | MemcheckAddr n => lit "Addr" ++ toDecimal n
  | MemcheckCond => lit "Cond"
  | MemcheckFree => lit "Free"
  | MemcheckLeak => lit "Leak"
  | MemcheckOverlap => lit "Overlap"
  | MemcheckParam => lit "Param"
  | MemcheckValue n => lit "Value" ++ toDecimal n
  | OtherType _ suppression_type => suppression_type

/-- The kind a rendered suppression reparses to: identical for the Memcheck
kinds, while an `OtherType` gets the literal `?` marker folded into the
re-parsed tool name. -/
def reparseKind : SuppressionType → SuppressionType
  | OtherType tool_name suppression_type => OtherType ('?' :: tool_name) suppression_type
  | k => k

/-- The accumulated extra-info option after pushing the given lines in order
(the parser's `HaveSuppressionType` extra-info update, iterated). -/
def pushAll (acc : Option (List Str)) (l : List Str) : Option (List Str) :=
  l.foldl (fun acc e => some (match acc with
    | none => [e]
    | some extra_info => extra_info ++ [e])) acc

def isFunFrame : Frame → Bool
  | FunFrame _ => true
  | _ => false

/-- A free-text line survives the parser's per-line trim and skip untouched:
nonempty, trim-stable, newline-free, and not a comment line. -/
def CleanLine (s : Str) : Prop :=
  s ≠ [] ∧ trim s = s ∧ '\n' ∉ s ∧ (lit "#").isPrefixOf s = false

instance (s : Str) : Decidable (CleanLine s) := by unfold CleanLine; infer_instance

/-- A suppression name the renderer writes back unchanged. -/
def CleanName (s : Str) : Prop := CleanLine s ∧ '\x7d' ∉ s

instance (s : Str) : Decidable (CleanName s) := by unfold CleanName; infer_instance

/-- An extra-info line that the re-parse cannot mistake for a frame line or
for the end of the block. -/
def CleanExtra (s : Str) : Prop :=
  CleanLine s ∧ s ≠ lit "..." ∧ (lit "obj:").isPrefixOf s = false ∧
    (lit "fun:").isPrefixOf s = false ∧ s ≠ lit "\x7d"

instance (s : Str) : Decidable (CleanExtra s) := by unfold CleanExtra; infer_instance

/-- A frame whose glob survives the trimming of its rendered line. -/
def CleanFrame : Frame → Prop
  | FrameWildcard => True
  | ObjFrame glob => trim glob = glob ∧ '\n' ∉ glob
  | FunFrame glob => trim glob = glob ∧ '\n' ∉ glob

instance (f : Frame) : Decidable (CleanFrame f) := by
  unfold CleanFrame; cases f <;> infer_instance

/-- A kind whose rendered form re-parses with the same tool/category split:
for `OtherType`, the tool name must carry no comma (else the comma-split
emits several records), no colon (else the colon-split moves), and the raw
category must be trim-right-stable; all parts newline-free. -/
def CleanKind : SuppressionType → Prop
  | OtherType tool_name suppression_type =>
    ',' ∉ tool_name ∧ ':' ∉ tool_name ∧ '\n' ∉ tool_name ∧
      '\n' ∉ suppression_type ∧ trimRight suppression_type = suppression_type
  | _ => True

instance (k : SuppressionType) : Decidable (CleanKind k) := by
  unfold CleanKind; cases k <;> infer_instance

/-- All the conditions under which render-then-parse provably reproduces the
record: clean name, kind, extra lines and globs, a nonempty frame list not
starting with a `fun:` frame, and no degenerate `some []` extra info. -/
def RoundTripSafe (s : Suppression) : Prop :=
  CleanName s.name ∧ CleanKind s.type_ ∧
    (s.opt_extra_info = none ∨ extraOf s.opt_extra_info ≠ []) ∧
    (∀ e ∈ extraOf s.opt_extra_info, CleanExtra e) ∧
    s.frames ≠ [] ∧ (∀ f, s.frames.head? = some f → isFunFrame f = false) ∧
    (∀ f ∈ s.frames, CleanFrame f)

instance (s : Suppression) : Decidable (RoundTripSafe s) := by
  unfold RoundTripSafe; infer_instance

/-- The invariant behind the parsed-name claim: a name is nonempty and
carries no closing brace. -/
def goodName (s : Str) : Prop := s ≠ [] ∧ s.contains '\x7d' = false

/-- `goodName` holds of the name carried by a parser state, when any. -/
def stateNames : ParseState → Prop
  | BeforeOpeningBrace => True
  | AfterOpeningBrace _ => True
  | HaveName _ name => goodName name
  | HaveSuppressionType _ name _ _ _ => goodName name
  | HaveOptExtraInfo _ name _ _ _ _ => goodName name

-- sanity checks on the string model
example : lit "ab:c" = ['a', 'b', ':', 'c'] := rfl
example : trim (lit "  ab \n") = lit "ab" := rfl
example : splitFirstColon (lit "Mem:Le:ak") = some (lit "Mem", lit "Le:ak") := by decide
example : splitComma (lit "a,,b") = [lit "a", [], lit "b"] := by decide
example : from_str (lit "42") = some 42 := by decide
example : from_str (lit "") = none := by decide
example : from_str (lit "4x") = none := by decide
example : toDecimal 408 = lit "408" := by decide
example : linesOf (lit "ab\ncd") = [lit "ab\n", lit "cd"] := by decide
example : linesOf (lit "ab\n") = [lit "ab\n"] := by decide

-- sanity checks on the parser
example : parse [lit "\x7b", lit "\x7d"] = .ok ⟨[]⟩ := by decide
example : parse [lit "   foo"] = .error ⟨1, lit "expecting an opening brace"⟩ := by decide
example :
    parse [lit "\x7b", lit "nm", lit "Memcheck:Leak", lit "fun:f", lit "\x7d"]
      = .ok ⟨[⟨lit "nm", MemcheckLeak, none, [ObjFrame (lit "f")]⟩]⟩ := by decide
example :
    parse [lit "\x7b", lit "nm", lit "Memcheck:Leak", lit "...", lit "fun:f", lit "\x7d"]
      = .ok ⟨[⟨lit "nm", MemcheckLeak, none, [FrameWildcard, FunFrame (lit "f")]⟩]⟩ := by
  decide
example :
    parse [lit "\x7b", lit "nm", lit "Memcheck:Leak", lit "\x7d"] = .ok ⟨[]⟩ := by decide
example :
    parse [lit "\x7b", lit "nm", lit "Memcheck:Addr4", lit "...", lit "\x7d"]
      = .ok ⟨[⟨lit "nm", MemcheckAddr 4, none, [FrameWildcard]⟩]⟩ := by decide
example :
    parse (linesOf (showSuppression ⟨lit "nm", MemcheckAddr 4, some [lit "info"],
        [FrameWildcard, FunFrame (lit "f*")]⟩))
      = .ok ⟨[⟨lit "nm", MemcheckAddr 4, some [lit "info"],
          [FrameWildcard, FunFrame (lit "f*")]⟩]⟩ := by decide
example :
    parse (linesOf (showSuppression ⟨lit "nm", OtherType (lit "T") (lit "Cat"), none,
        [FrameWildcard]⟩))
      = .ok ⟨[⟨lit "nm", OtherType (lit "?T") (lit "Cat"), none, [FrameWildcard]⟩]⟩ := by
  decide

/-! ## Literal expansions and whitespace facts -/

@[simp] lemma lit_hash : lit "#" = ['#'] := rfl
@[simp] lemma lit_obrace : lit "\x7b" = ['\x7b'] := rfl
@[simp] lemma lit_cbrace : lit "\x7d" = ['\x7d'] := rfl
@[simp] lemma lit_dots : lit "..." = ['.', '.', '.'] := rfl
@[simp] lemma lit_objc : lit "obj:" = ['o', 'b', 'j', ':'] := rfl
@[simp] lemma lit_func : lit "fun:" = ['f', 'u', 'n', ':'] := rfl
@[simp] lemma lit_indent : lit "   " = [' ', ' ', ' '] := rfl
@[simp] lemma lit_memcheck : lit "Memcheck" = ['M', 'e', 'm', 'c', 'h', 'e', 'c', 'k'] := rfl
@[simp] lemma lit_addrs : lit "Addr" = ['A', 'd', 'd', 'r'] := rfl
@[simp] lemma lit_conds : lit "Cond" = ['C', 'o', 'n', 'd'] := rfl
@[simp] lemma lit_frees : lit "Free" = ['F', 'r', 'e', 'e'] := rfl
@[simp] lemma lit_leaks : lit "Leak" = ['L', 'e', 'a', 'k'] := rfl
@[simp] lemma lit_overlaps : lit "Overlap" = ['O', 'v', 'e', 'r', 'l', 'a', 'p'] := rfl
@[simp] lemma lit_params : lit "Param" = ['P', 'a', 'r', 'a', 'm'] := rfl
@[simp] lemma lit_values : lit "Value" = ['V', 'a', 'l', 'u', 'e'] := rfl

@[simp] lemma isWs_space : isWs ' ' = true := by decide
@[simp] lemma isWs_nl : isWs '\n' = true := by decide

/-! ## Trim lemmas -/

lemma trimRight_eq_rdropWhile (s : Str) : trimRight s = s.rdropWhile isWs := rfl

/-- A trim-stable string is stable under each one-sided trim. -/
lemma trim_eq_self_parts (s : Str) (h : trim s = s) :
    trimLeft s = s ∧ trimRight s = s := by
  have h1 : trimLeft s <:+ s := List.dropWhile_suffix _
  have h2 : trimRight (trimLeft s) <+: trimLeft s := by
    rw [trimRight_eq_rdropWhile]; exact List.rdropWhile_prefix _ _
  rw [show trimRight (trimLeft s) = s from h] at h2
  have h3 : trimLeft s = s := List.Sublist.antisymm h1.sublist h2.sublist
  refine ⟨h3, ?_⟩
  calc trimRight s = trimRight (trimLeft s) := by rw [h3]
    _ = s := h

lemma trimLeft_cons_eq (c : Char) (t : Str) (h : trimLeft (c :: t) = c :: t) :
    isWs c = false := by
  by_contra hc
  rw [Bool.not_eq_false] at hc
  have hsub := (List.dropWhile_suffix (l := t) isWs).sublist.length_le
  rw [trimLeft, List.dropWhile_cons, if_pos hc] at h
  rw [h] at hsub
  simp at hsub

lemma trimLeft_eq_self_of_head (c : Char) (t : Str) (h : isWs c = false) :
    trimLeft (c :: t) = c :: t := by
  simp [trimLeft, List.dropWhile_cons, h]

lemma trimLeft_append (a b : Str) (ha : trimLeft a = a) (hane : a ≠ []) :
    trimLeft (a ++ b) = a ++ b := by
  cases a with
  | nil => exact absurd rfl hane
  | cons c t =>
    have hc := trimLeft_cons_eq c t ha
    simp [trimLeft, List.dropWhile_cons, hc]

lemma trimRight_eq_self_iff (s : Str) :
    trimRight s = s ↔ ∀ h : s ≠ [], isWs (s.getLast h) = false := by
  rw [trimRight_eq_rdropWhile, List.rdropWhile_eq_self_iff]
  simp

lemma trimRight_append (a b : Str) (hb : trimRight b = b) (hbne : b ≠ []) :
    trimRight (a ++ b) = a ++ b := by
  obtain ⟨l, x, rfl⟩ : ∃ l x, b = l ++ [x] :=
    ⟨b.dropLast, b.getLast hbne, (List.dropLast_append_getLast hbne).symm⟩
  have hx : isWs x = false := by
    have := (trimRight_eq_self_iff _).mp hb (by simp)
    simpa using this
  rw [trimRight_eq_rdropWhile, show a ++ (l ++ [x]) = (a ++ l) ++ [x] by simp,
    List.rdropWhile_concat_neg _ _ _ (by simp [hx])]

lemma trimRight_append_nl (s : Str) (h : trimRight s = s) :
    trimRight (s ++ ['\n']) = s := by
  rw [trimRight_eq_rdropWhile, List.rdropWhile_concat_pos _ _ _ (by simp)]
  exact h

/-- The parser's trim of a rendered body line gives back the payload. -/
lemma trim_pad_line (s : Str) (hs : trim s = s) (hne : s ≠ []) :
    trim (lit "   " ++ s ++ ['\n']) = s := by
  obtain ⟨hL, hR⟩ := trim_eq_self_parts s hs
  have h1 : trimLeft (lit "   " ++ (s ++ ['\n'])) = s ++ ['\n'] := by
    cases s with
    | nil => exact absurd rfl hne
    | cons c t =>
      have hc := trimLeft_cons_eq c t hL
      simp [trimLeft, List.dropWhile_cons, hc]
  rw [List.append_assoc, trim, h1, trimRight_append_nl _ hR]

/-! ## Decimal rendering round-trips through `from_str` -/

lemma digitsVal_concat (a : Str) (c : Char) :
    digitsVal (a ++ [c]) = digitsVal a * 10 + (c.toNat - 48) := by
  simp [digitsVal, List.foldl_append]

lemma toDecimalAux_spec (fuel : Nat) : ∀ n : Nat, n < fuel →
    toDecimalAux fuel n ≠ [] ∧
      (∀ c ∈ toDecimalAux fuel n, isDigit c = true ∧ isWs c = false) ∧
      digitsVal (toDecimalAux fuel n) = n := by
  induction fuel with
  | zero => intro n h; omega
  | succ fuel ih =>
    intro n h
    by_cases h10 : n < 10
    · rw [toDecimalAux, if_pos h10]
      refine ⟨by simp, ?_, ?_⟩
      · intro c hc
        rw [List.mem_singleton] at hc
        subst hc
        interval_cases n <;> exact ⟨by decide, by decide⟩
      · simp only [digitsVal, List.foldl_cons, List.foldl_nil]
        interval_cases n <;> decide
    · have hdiv : n / 10 < fuel := by
        have h1 : n / 10 < n := Nat.div_lt_self (by omega) (by omega)
        omega
      obtain ⟨ihne, ihall, ihval⟩ := ih (n / 10) hdiv
      rw [toDecimalAux, if_neg h10]
      have hm : n % 10 < 10 := Nat.mod_lt _ (by omega)
      refine ⟨by simp, ?_, ?_⟩
      · intro c hc
        rw [List.mem_append, List.mem_singleton] at hc
        rcases hc with hc | hc
        · exact ihall c hc
        · subst hc
          set m := n % 10 with hmdef
          interval_cases m <;> exact ⟨by decide, by decide⟩
      · rw [digitsVal_concat, ihval]
        have hchar : (Nat.digitChar (n % 10)).toNat - 48 = n % 10 := by
          set m := n % 10 with hmdef
          interval_cases m <;> decide
        rw [hchar]
        omega

lemma toDecimal_spec (n : Nat) :
    toDecimal n ≠ [] ∧
      (∀ c ∈ toDecimal n, isDigit c = true ∧ isWs c = false) ∧
      digitsVal (toDecimal n) = n :=
  toDecimalAux_spec (n + 1) n (Nat.lt_succ_self n)

/-- The decimal rendering of `n` parses back to `n`. -/
lemma from_str_toDecimal (n : Nat) : from_str (toDecimal n) = some n := by
  obtain ⟨hne, hall, hval⟩ := toDecimal_spec n
  rw [from_str, if_pos, hval]
  simp only [Bool.and_eq_true, Bool.not_eq_true']
  constructor
  · simp [List.isEmpty_iff, hne]
  · rw [List.all_eq_true]
    exact fun c hc => (hall c hc).1

lemma trim_toDecimal_parts (n : Nat) :
    trimLeft (toDecimal n) = toDecimal n ∧ trimRight (toDecimal n) = toDecimal n := by
  obtain ⟨hne, hall, -⟩ := toDecimal_spec n
  constructor
  · cases hd : toDecimal n with
    | nil => rfl
    | cons c t =>
      exact trimLeft_eq_self_of_head c t
        ((hall c (by rw [hd]; exact List.mem_cons_self c t)).2)
  · rw [trimRight_eq_self_iff]
    intro h
    exact (hall _ (List.getLast_mem h)).2

lemma nl_not_mem_toDecimal (n : Nat) : '\n' ∉ toDecimal n := by
  intro h
  have := (toDecimal_spec n).2.1 '\n' h
  simp at this

/-! ## Splitting lemmas -/

lemma splitFirstColon_append (bef aft : Str) (h : ':' ∉ bef) :
    splitFirstColon (bef ++ ':' :: aft) = some (bef, aft) := by
  induction bef with
  | nil => simp [splitFirstColon]
  | cons c t ih =>
    have hc : c ≠ ':' := by
      intro hc; exact h (hc ▸ List.mem_cons_self c t)
    have ht : ':' ∉ t := fun hm => h (List.mem_cons_of_mem c hm)
    simp [splitFirstColon, hc, ih ht]

lemma splitComma_no_comma (s : Str) (h : ',' ∉ s) : splitComma s = [s] := by
  induction s with
  | nil => rfl
  | cons c t ih =>
    have hc : c ≠ ',' := by
      intro hc; exact h (hc ▸ List.mem_cons_self c t)
    have ht : ',' ∉ t := fun hm => h (List.mem_cons_of_mem c hm)
    simp [splitComma, hc, ih ht]

/-! ## The rendered kind string -/

lemma showType_decomp (k : SuppressionType) :
    showSuppressionType k = toolOf k ++ ':' :: catOf k := by
  cases k <;> simp [showSuppressionType, toolOf, catOf, lit]

lemma toolOf_no_colon (k : SuppressionType) (hk : CleanKind k) : ':' ∉ toolOf k := by
  cases k <;> simp_all [toolOf, CleanKind]

lemma toolOf_no_comma (k : SuppressionType) (hk : CleanKind k) : ',' ∉ toolOf k := by
  cases k <;> simp_all [toolOf, CleanKind]

lemma showType_nonempty (k : SuppressionType) : showSuppressionType k ≠ [] := by
  cases k <;> simp [showSuppressionType, lit]

lemma showType_no_nl (k : SuppressionType) (hk : CleanKind k) :
    '\n' ∉ showSuppressionType k := by
  cases k with
  | MemcheckAddr n => simp [showSuppressionType, lit, nl_not_mem_toDecimal n]
  | MemcheckValue n => simp [showSuppressionType, lit, nl_not_mem_toDecimal n]
  | OtherType t r =>
    obtain ⟨-, -, h1, h2, -⟩ := hk
    simp [showSuppressionType, h1, h2]
  | _ => simp [showSuppressionType, lit]

lemma showType_trim (k : SuppressionType) (hk : CleanKind k) :
    trim (showSuppressionType k) = showSuppressionType k := by
  have hL : trimLeft (showSuppressionType k) = showSuppressionType k := by
    cases k with
    | MemcheckAddr n => exact trimLeft_eq_self_of_head _ _ (by decide)
    | MemcheckValue n => exact trimLeft_eq_self_of_head _ _ (by decide)
    | OtherType t r => exact trimLeft_eq_self_of_head _ _ (by decide)
    | _ => decide
  have hR : trimRight (showSuppressionType k) = showSuppressionType k := by
    cases k with
    | MemcheckAddr n =>
      exact trimRight_append _ _ (trim_toDecimal_parts n).2 (toDecimal_spec n).1
    | MemcheckValue n =>
      exact trimRight_append _ _ (trim_toDecimal_parts n).2 (toDecimal_spec n).1
    | OtherType t r =>
      obtain ⟨-, -, -, -, hr⟩ := hk
      have hb : trimRight (':' :: r) = ':' :: r := by
        rw [trimRight_eq_self_iff]
        intro h
        cases r with
        | nil =>
          rw [show [':'].getLast h = ':' from rfl]
          decide
        | cons c rt =>
          rw [List.getLast_cons (by simp)]
          exact (trimRight_eq_self_iff _).mp hr (by simp)
      have h2 : trimRight (('?' :: t) ++ (':' :: r)) = ('?' :: t) ++ (':' :: r) :=
        trimRight_append _ _ hb (by simp)
      simpa using h2
    | _ => decide
  rw [trim, hL, hR]

lemma resolveType_not_memcheck (t r : Str) (h : t ≠ lit "Memcheck") :
    resolveType t r = OtherType t r := by
  rw [resolveType, if_neg h]

/-- Re-resolving the rendered tool/category of a clean kind gives the kind
back, up to the `?` marker folded into an `OtherType`'s tool name. -/
lemma resolveType_toolOf_catOf (k : SuppressionType) (hk : CleanKind k) :
    resolveType (toolOf k) (catOf k) = reparseKind k := by
  cases k with
  | MemcheckAddr n =>
    show resolveType (lit "Memcheck") (lit "Addr" ++ toDecimal n) = MemcheckAddr n
    rw [resolveType, if_pos rfl, if_pos]
    · rw [show (lit "Addr" ++ toDecimal n).drop 4 = toDecimal n from
        List.drop_left (lit "Addr") (toDecimal n), from_str_toDecimal n]
    · simp [List.isPrefixOf]
  | MemcheckValue n =>
    show resolveType (lit "Memcheck") (lit "Value" ++ toDecimal n) = MemcheckValue n
    rw [resolveType, if_pos rfl, if_neg (by simp [List.isPrefixOf]),
      if_neg (by simp), if_neg (by simp), if_neg (by simp), if_neg (by simp),
      if_neg (by simp), if_pos (by simp [List.isPrefixOf])]
    rw [show (lit "Value" ++ toDecimal n).drop 5 = toDecimal n from
      List.drop_left (lit "Value") (toDecimal n), from_str_toDecimal n]
  | OtherType t r =>
    show resolveType ('?' :: t) r = _
    rw [resolveType_not_memcheck _ _ (by simp), reparseKind]
  | MemcheckCond => decide
  | MemcheckFree => decide
  | MemcheckLeak => decide
  | MemcheckOverlap => decide
  | MemcheckParam => decide

/-! ## Line splitting of rendered output -/

lemma linesOfAux_append_nl (xs : Str) (h : '\n' ∉ xs) :
    ∀ (acc rest : Str), linesOfAux acc (xs ++ '\n' :: rest)
      = (acc.reverse ++ xs ++ ['\n']) :: linesOfAux [] rest := by
  induction xs with
  | nil => intro acc rest; simp [linesOfAux]
  | cons c t ih =>
    intro acc rest
    have hc : c ≠ '\n' := fun hc => h (hc ▸ List.mem_cons_self c t)
    have ht : '\n' ∉ t := fun hm => h (List.mem_cons_of_mem c hm)
    rw [List.cons_append, linesOfAux, if_neg (by simpa using hc), ih ht]
    simp

lemma linesOf_line (xs rest : Str) (h : '\n' ∉ xs) :
    linesOf (xs ++ '\n' :: rest) = (xs ++ ['\n']) :: linesOf rest := by
  rw [linesOf, linesOfAux_append_nl xs h [] rest]
  simp [linesOf]

lemma linesOf_last (xs : Str) (h : '\n' ∉ xs) (hne : xs ≠ []) :
    linesOf xs = [xs] := by
  suffices h2 : ∀ acc : Str, acc.reverse ++ xs ≠ [] → '\n' ∉ xs →
      linesOfAux acc xs = [acc.reverse ++ xs] by
    simpa using h2 [] (by simpa using hne) h
  clear h hne
  induction xs with
  | nil => intro acc hne _; simp_all [linesOfAux, List.isEmpty_iff]
  | cons c t ih =>
    intro acc hne hnl
    have hc : c ≠ '\n' := fun hc => hnl (hc ▸ List.mem_cons_self c t)
    have ht : '\n' ∉ t := fun hm => hnl (List.mem_cons_of_mem c hm)
    rw [linesOfAux, if_neg (by simpa using hc), ih (c :: acc) (by simp) ht]
    simp

/-- Splitting off one indented rendered line. -/
lemma linesOf_indent_line (s rest : Str) (h : '\n' ∉ s) :
    linesOf (lit "   " ++ (s ++ '\n' :: rest))
      = (lit "   " ++ (s ++ ['\n'])) :: linesOf rest := by
  have h3 : '\n' ∉ lit "   " ++ s := by simp [h]
  rw [← List.append_assoc, linesOf_line _ rest h3]
  simp

/-- Splitting off a block of indented rendered lines. -/
lemma linesOf_mapIndent (ls : List Str) (rest : Str) (h : ∀ l ∈ ls, '\n' ∉ l) :
    linesOf ((ls.map (fun l => lit "   " ++ l ++ ['\n'])).flatten ++ rest)
      = ls.map (fun l => lit "   " ++ l ++ ['\n']) ++ linesOf rest := by
  induction ls with
  | nil => simp
  | cons e t ih =>
    have he : '\n' ∉ e := h e (List.mem_cons_self e t)
    have ht : ∀ l ∈ t, '\n' ∉ l := fun l hl => h l (List.mem_cons_of_mem e hl)
    rw [List.map_cons, List.flatten_cons]
    have hshape :
        lit "   " ++ e ++ ['\n'] ++ ((t.map (fun l => lit "   " ++ l ++ ['\n'])).flatten ++ rest)
          = lit "   " ++ (e ++ '\n' :: ((t.map (fun l => lit "   " ++ l ++ ['\n'])).flatten ++ rest)) := by
      simp
    rw [List.append_assoc, hshape, linesOf_indent_line e _ he, ih ht]
    simp

lemma showFrame_no_nl (f : Frame) (hf : CleanFrame f) : '\n' ∉ showFrame f := by
  cases f with
  | FrameWildcard => decide
  | ObjFrame g => obtain ⟨-, h⟩ := hf; simp [showFrame, h]
  | FunFrame g => obtain ⟨-, h⟩ := hf; simp [showFrame, h]

/-- The rendered suppression splits into exactly the expected lines. -/
lemma linesOf_showSuppression (v : Suppression)
    (hn : '\n' ∉ v.name) (hk : '\n' ∉ showSuppressionType v.type_)
    (he : ∀ e ∈ extraOf v.opt_extra_info, '\n' ∉ e)
    (hf : ∀ f ∈ v.frames, '\n' ∉ showFrame f) :
    linesOf (showSuppression v)
      = (lit "\x7b" ++ ['\n'])
        :: (lit "   " ++ v.name ++ ['\n'])
        :: (lit "   " ++ showSuppressionType v.type_ ++ ['\n'])
        :: ((extraOf v.opt_extra_info).map (fun e => lit "   " ++ e ++ ['\n'])
            ++ (v.frames.map showFrame).map (fun l => lit "   " ++ l ++ ['\n'])
            ++ [lit "\x7d"]) := by
  have hmatch : (match v.opt_extra_info with
      | none => ([] : Str)
      | some extra_info =>
        (extra_info.map (fun line => lit "   " ++ line ++ ['\n'])).flatten)
      = ((extraOf v.opt_extra_info).map (fun line => lit "   " ++ line ++ ['\n'])).flatten := by
    cases v.opt_extra_info <;> simp [extraOf]
  have hframes : (v.frames.map (fun frame => lit "   " ++ showFrame frame ++ ['\n'])).flatten
      = ((v.frames.map showFrame).map (fun l => lit "   " ++ l ++ ['\n'])).flatten := by
    rw [List.map_map]
    rfl
  rw [showSuppression, hmatch, hframes]
  have hstep1 : ∀ rest : Str, linesOf ((lit "\x7b" ++ ['\n']) ++ rest)
      = (lit "\x7b" ++ ['\n']) :: linesOf rest := by
    intro rest
    have := linesOf_line (lit "\x7b") rest (by decide)
    simpa using this
  have hfr : ∀ l ∈ v.frames.map showFrame, '\n' ∉ l := by
    intro l hl
    obtain ⟨f, hfm, rfl⟩ := List.mem_map.mp hl
    exact hf f hfm
  -- peel the lines one by one, right-normalizing the appends
  have hgoal : linesOf
      ((lit "\x7b" ++ ['\n'])
        ++ ((lit "   " ++ v.name ++ ['\n'])
          ++ ((lit "   " ++ showSuppressionType v.type_ ++ ['\n'])
            ++ (((extraOf v.opt_extra_info).map (fun line => lit "   " ++ line ++ ['\n'])).flatten
              ++ (((v.frames.map showFrame).map (fun l => lit "   " ++ l ++ ['\n'])).flatten
                ++ lit "\x7d")))))
      = (lit "\x7b" ++ ['\n'])
        :: (lit "   " ++ v.name ++ ['\n'])
        :: (lit "   " ++ showSuppressionType v.type_ ++ ['\n'])
        :: ((extraOf v.opt_extra_info).map (fun e => lit "   " ++ e ++ ['\n'])
            ++ (v.frames.map showFrame).map (fun l => lit "   " ++ l ++ ['\n'])
            ++ [lit "\x7d"]) := by
    rw [hstep1]
    have h2 : linesOf ((lit "   " ++ v.name ++ ['\n'])
        ++ ((lit "   " ++ showSuppressionType v.type_ ++ ['\n'])
          ++ (((extraOf v.opt_extra_info).map (fun line => lit "   " ++ line ++ ['\n'])).flatten
            ++ (((v.frames.map showFrame).map (fun l => lit "   " ++ l ++ ['\n'])).flatten
              ++ lit "\x7d"))))
        = (lit "   " ++ v.name ++ ['\n'])
          :: linesOf ((lit "   " ++ showSuppressionType v.type_ ++ ['\n'])
            ++ (((extraOf v.opt_extra_info).map (fun line => lit "   " ++ line ++ ['\n'])).flatten
              ++ (((v.frames.map showFrame).map (fun l => lit "   " ++ l ++ ['\n'])).flatten
                ++ lit "\x7d"))) := by
      have := linesOf_indent_line v.name
        ((lit "   " ++ showSuppressionType v.type_ ++ ['\n'])
          ++ (((extraOf v.opt_extra_info).map (fun line => lit "   " ++ line ++ ['\n'])).flatten
            ++ (((v.frames.map showFrame).map (fun l => lit "   " ++ l ++ ['\n'])).flatten
              ++ lit "\x7d"))) hn
      simpa [List.append_assoc] using this
    rw [h2]
    have h3 : linesOf ((lit "   " ++ showSuppressionType v.type_ ++ ['\n'])
        ++ (((extraOf v.opt_extra_info).map (fun line => lit "   " ++ line ++ ['\n'])).flatten
          ++ (((v.frames.map showFrame).map (fun l => lit "   " ++ l ++ ['\n'])).flatten
            ++ lit "\x7d")))
        = (lit "   " ++ showSuppressionType v.type_ ++ ['\n'])
          :: linesOf (((extraOf v.opt_extra_info).map (fun line => lit "   " ++ line ++ ['\n'])).flatten
            ++ (((v.frames.map showFrame).map (fun l => lit "   " ++ l ++ ['\n'])).flatten
              ++ lit "\x7d")) := by
      have := linesOf_indent_line (showSuppressionType v.type_)
        ((((extraOf v.opt_extra_info).map (fun line => lit "   " ++ line ++ ['\n'])).flatten
          ++ (((v.frames.map showFrame).map (fun l => lit "   " ++ l ++ ['\n'])).flatten
            ++ lit "\x7d"))) hk
      simpa [List.append_assoc] using this
    rw [h3]
    rw [linesOf_mapIndent _ _ he, linesOf_mapIndent _ _ hfr,
      linesOf_last (lit "\x7d") (by decide) (by decide)]
    simp [List.append_assoc]
  have hassoc : (lit "\x7b" ++ ['\n'])
      ++ (lit "   " ++ v.name ++ ['\n'])
      ++ (lit "   " ++ showSuppressionType v.type_ ++ ['\n'])
      ++ ((extraOf v.opt_extra_info).map (fun line => lit "   " ++ line ++ ['\n'])).flatten
      ++ ((v.frames.map showFrame).map (fun l => lit "   " ++ l ++ ['\n'])).flatten
      ++ lit "\x7d"
      = (lit "\x7b" ++ ['\n'])
        ++ ((lit "   " ++ v.name ++ ['\n'])
          ++ ((lit "   " ++ showSuppressionType v.type_ ++ ['\n'])
            ++ (((extraOf v.opt_extra_info).map (fun line => lit "   " ++ line ++ ['\n'])).flatten
              ++ (((v.frames.map showFrame).map (fun l => lit "   " ++ l ++ ['\n'])).flatten
                ++ lit "\x7d")))) := by
    simp [List.append_assoc]
  rw [hassoc, hgoal]

/-! ## Single-step evaluation lemmas for the parser -/

lemma showType_no_hash (k : SuppressionType) :
    (lit "#").isPrefixOf (showSuppressionType k) = false := by
  cases k <;> simp [showSuppressionType, List.isPrefixOf, lit]

lemma bool_not_true {b : Bool} (h : b = false) : ¬ (b = true) := by simp [h]

lemma skip_false {s : Str} (hne : s ≠ []) (hhash : (lit "#").isPrefixOf s = false) :
    ¬ ((s.isEmpty || (lit "#").isPrefixOf s) = true) := by
  intro hcond
  simp only [Bool.or_eq_true] at hcond
  rcases hcond with h1 | h2
  · exact hne (List.isEmpty_iff.mp h1)
  · rw [hhash] at h2
    cases h2

lemma stepLine_openBrace {sups : List Suppression} {n : Nat} {l : Str}
    (h : trim l = lit "\x7b") :
    stepLine sups BeforeOpeningBrace n l = .ok (sups, AfterOpeningBrace n) := by
  rw [stepLine, h]
  rfl

lemma stepLine_nameLine {sups : List Suppression} {obl n : Nat} {l name : Str}
    (htrim : trim l = name) (hname : CleanName name) :
    stepLine sups (AfterOpeningBrace obl) n l = .ok (sups, HaveName obl name) := by
  obtain ⟨⟨hne, hst, hnl, hhash⟩, hbr⟩ := hname
  simp only [stepLine, htrim]
  rw [if_neg (skip_false hne hhash),
    if_neg (fun h' => hbr (by simp [h'])),
    if_neg (by simpa using hbr)]

lemma stepLine_typeLine {sups : List Suppression} {obl n : Nat} {l name : Str}
    {k : SuppressionType} (htrim : trim l = showSuppressionType k) (hk : CleanKind k) :
    stepLine sups (HaveName obl name) n l
      = .ok (sups, HaveSuppressionType obl name [toolOf k] (catOf k) none) := by
  simp only [stepLine, htrim]
  rw [if_neg (skip_false (showType_nonempty k) (showType_no_hash k)),
    showType_decomp k, splitFirstColon_append _ _ (toolOf_no_colon k hk)]
  show Except.ok (sups, HaveSuppressionType obl name (splitComma (toolOf k)) (catOf k) none) = _
  rw [splitComma_no_comma _ (toolOf_no_comma k hk)]

lemma stepLine_extraLine {sups : List Suppression} {obl n : Nat} {l name cat e : Str}
    {tns : List Str} {acc : Option (List Str)}
    (htrim : trim l = e) (he : CleanExtra e) :
    stepLine sups (HaveSuppressionType obl name tns cat acc) n l
      = .ok (sups, HaveSuppressionType obl name tns cat
          (some (match acc with
            | none => [e]
            | some extra_info => extra_info ++ [e]))) := by
  obtain ⟨⟨hne, hst, hnl, hhash⟩, hdots, hobj, hfun, hbr⟩ := he
  simp only [stepLine, htrim]
  rw [if_neg (skip_false hne hhash),
    if_neg hdots, if_neg (bool_not_true hobj), if_neg (bool_not_true hfun), if_neg hbr]

lemma stepLine_firstFrame {sups : List Suppression} {obl n : Nat} {l name cat : Str}
    {tns : List Str} {acc : Option (List Str)} {f : Frame}
    (htrim : trim l = showFrame f) (hf : CleanFrame f) (hnf : isFunFrame f = false) :
    stepLine sups (HaveSuppressionType obl name tns cat acc) n l
      = .ok (sups, HaveOptExtraInfo obl name tns cat acc [f]) := by
  cases f with
  | FrameWildcard =>
    simp only [stepLine, htrim]
    rfl
  | ObjFrame g =>
    obtain ⟨hst, hnl⟩ := hf
    simp only [stepLine, htrim, showFrame]
    rw [if_neg (skip_false (by simp) (by simp [List.isPrefixOf])),
      if_neg (by simp),
      if_pos ( List.isPrefixOf_iff_prefix.mpr (List.prefix_append _ _)),
      show ((lit "obj:" ++ g).drop 4) = g from List.drop_left (lit "obj:") g,
      (trim_eq_self_parts g hst).1]
  | FunFrame g => simp [isFunFrame] at hnf

lemma stepLine_moreFrame {sups : List Suppression} {obl n : Nat} {l name cat : Str}
    {tns : List Str} {acc : Option (List Str)} {frames : List Frame} {f : Frame}
    (htrim : trim l = showFrame f) (hf : CleanFrame f) :
    stepLine sups (HaveOptExtraInfo obl name tns cat acc frames) n l
      = .ok (sups, HaveOptExtraInfo obl name tns cat acc (frames ++ [f])) := by
  cases f with
  | FrameWildcard =>
    simp only [stepLine, htrim]
    rfl
  | ObjFrame g =>
    obtain ⟨hst, hnl⟩ := hf
    simp only [stepLine, htrim, showFrame]
    rw [if_neg (skip_false (by simp) (by simp [List.isPrefixOf])),
      if_neg (by simp),
      if_pos ( List.isPrefixOf_iff_prefix.mpr (List.prefix_append _ _)),
      show ((lit "obj:" ++ g).drop 4) = g from List.drop_left (lit "obj:") g,
      (trim_eq_self_parts g hst).1]
  | FunFrame g =>
    obtain ⟨hst, hnl⟩ := hf
    simp only [stepLine, htrim, showFrame]
    rw [if_neg (skip_false (by simp) (by simp [List.isPrefixOf])),
      if_neg (by simp),
      if_neg (bool_not_true (by simp [List.isPrefixOf])),
      if_pos ( List.isPrefixOf_iff_prefix.mpr (List.prefix_append _ _)),
      show ((lit "fun:" ++ g).drop 4) = g from List.drop_left (lit "fun:") g,
      (trim_eq_self_parts g hst).1]

lemma stepLine_closeNoFrames {sups : List Suppression} {obl n : Nat} {l name cat : Str}
    {tns : List Str} {acc : Option (List Str)} (htrim : trim l = lit "\x7d") :
    stepLine sups (HaveSuppressionType obl name tns cat acc) n l
      = .ok (sups, BeforeOpeningBrace) := by
  simp only [stepLine, htrim]
  rfl

lemma stepLine_closeBrace {sups : List Suppression} {obl n : Nat} {l name cat : Str}
    {tns : List Str} {acc : Option (List Str)} {frames : List Frame}
    (htrim : trim l = lit "\x7d") :
    stepLine sups (HaveOptExtraInfo obl name tns cat acc frames) n l
      = .ok (sups ++ tns.map (fun tool_name =>
          ⟨name, resolveType tool_name cat, acc, frames⟩), BeforeOpeningBrace) := by
  simp only [stepLine, htrim]
  rfl

/-! ## Multi-line evaluation lemmas for the parser -/

lemma parseLoop_cons_ok {sups : List Suppression} {st : ParseState} {n : Nat}
    {l : Str} {rest : List Str} {sups' : List Suppression} {st' : ParseState}
    (h : stepLine sups st (n + 1) l = .ok (sups', st')) :
    parseLoop sups st n (l :: rest) = parseLoop sups' st' (n + 1) rest := by
  rw [parseLoop, h]

lemma pushAll_some (l : List Str) : ∀ xs : List Str, pushAll (some xs) l = some (xs ++ l) := by
  induction l with
  | nil => intro xs; simp [pushAll]
  | cons e t ih =>
    intro xs
    show pushAll (some (xs ++ [e])) t = _
    rw [ih (xs ++ [e])]
    simp

lemma pushAll_none_nil : pushAll none [] = none := rfl

lemma pushAll_none (l : List Str) (h : l ≠ []) : pushAll none l = some l := by
  cases l with
  | nil => exact absurd rfl h
  | cons e t =>
    show pushAll (some [e]) t = _
    rw [pushAll_some t [e]]
    simp

/-- Feeding the rendered extra-info lines accumulates them in order. -/
lemma parseLoop_extraBlock {obl : Nat} {name cat : Str} {tns : List Str} :
    ∀ (es : List Str) (acc : Option (List Str)) (sups : List Suppression) (n : Nat)
      (rest : List Str), (∀ e ∈ es, CleanExtra e) →
      parseLoop sups (HaveSuppressionType obl name tns cat acc) n
          (es.map (fun e => lit "   " ++ e ++ ['\n']) ++ rest)
        = parseLoop sups (HaveSuppressionType obl name tns cat (pushAll acc es))
            (n + es.length) rest := by
  intro es
  induction es with
  | nil =>
    intro acc sups n rest h
    simp [pushAll]
  | cons e t ih =>
    intro acc sups n rest h
    have he : CleanExtra e := h e (List.mem_cons_self e t)
    have ht : ∀ x ∈ t, CleanExtra x := fun x hx => h x (List.mem_cons_of_mem e hx)
    rw [List.map_cons, List.cons_append,
      parseLoop_cons_ok (stepLine_extraLine
        (trim_pad_line e he.1.2.1 he.1.1) he),
      ih _ _ _ _ ht]
    show _ = parseLoop sups (HaveSuppressionType obl name tns cat
      (pushAll (some (match acc with
        | none => [e]
        | some extra_info => extra_info ++ [e])) t)) _ rest
    congr 1
    rw [List.length_cons]
    omega

lemma showFrame_trim (f : Frame) (hf : CleanFrame f) :
    trim (showFrame f) = showFrame f := by
  cases f with
  | FrameWildcard => decide
  | ObjFrame g =>
    obtain ⟨hst, -⟩ := hf
    obtain ⟨hL, hR⟩ := trim_eq_self_parts g hst
    rw [trim, showFrame]
    rw [trimLeft_append _ _ (by decide) (by decide)]
    cases g with
    | nil => decide
    | cons c gt =>
      rw [trimRight_append _ _ hR (by simp)]
  | FunFrame g =>
    obtain ⟨hst, -⟩ := hf
    obtain ⟨hL, hR⟩ := trim_eq_self_parts g hst
    rw [trim, showFrame]
    rw [trimLeft_append _ _ (by decide) (by decide)]
    cases g with
    | nil => decide
    | cons c gt =>
      rw [trimRight_append _ _ hR (by simp)]

lemma showFrame_nonempty (f : Frame) : showFrame f ≠ [] := by
  cases f <;> simp [showFrame, lit]

lemma trim_frameLine (f : Frame) (hf : CleanFrame f) :
    trim (lit "   " ++ showFrame f ++ ['\n']) = showFrame f :=
  trim_pad_line _ (showFrame_trim f hf) (showFrame_nonempty f)

/-- Feeding the rendered frame lines appends the frames in order. -/
lemma parseLoop_frameBlock {obl : Nat} {name cat : Str} {tns : List Str}
    {acc : Option (List Str)} :
    ∀ (fs : List Frame) (frames : List Frame) (sups : List Suppression) (n : Nat)
      (rest : List Str), (∀ f ∈ fs, CleanFrame f) →
      parseLoop sups (HaveOptExtraInfo obl name tns cat acc frames) n
          (fs.map (fun f => lit "   " ++ showFrame f ++ ['\n']) ++ rest)
        = parseLoop sups (HaveOptExtraInfo obl name tns cat acc (frames ++ fs))
            (n + fs.length) rest := by
  intro fs
  induction fs with
  | nil =>
    intro frames sups n rest h
    simp
  | cons f t ih =>
    intro frames sups n rest h
    have hf : CleanFrame f := h f (List.mem_cons_self f t)
    have ht : ∀ x ∈ t, CleanFrame x := fun x hx => h x (List.mem_cons_of_mem f hx)
    have htr : trim (lit "   " ++ showFrame f ++ ['\n']) = showFrame f :=
      trim_frameLine f hf
    rw [List.map_cons, List.cons_append,
      parseLoop_cons_ok (stepLine_moreFrame htr hf), ih _ _ _ _ ht]
    rw [List.append_assoc]
    congr 1
    rw [List.length_cons]
    omega

/-- Render-then-parse of a single clean suppression: the full round trip. -/
lemma renderParse (v : Suppression) (h : RoundTripSafe v) :
    parse (linesOf (showSuppression v))
      = .ok ⟨[⟨v.name, reparseKind v.type_, v.opt_extra_info, v.frames⟩]⟩ := by
  obtain ⟨hname, hkind, hoei, hextra, hfrne, hfr1, hfrall⟩ := h
  obtain ⟨f0, frest, hfr⟩ : ∃ f0 frest, v.frames = f0 :: frest := by
    cases hc : v.frames with
    | nil => exact absurd hc hfrne
    | cons a b => exact ⟨a, b, rfl⟩
  have hf0 : CleanFrame f0 := hfrall f0 (by rw [hfr]; exact List.mem_cons_self _ _)
  have hf0fun : isFunFrame f0 = false := hfr1 f0 (by rw [hfr]; rfl)
  have hfrest : ∀ x ∈ frest, CleanFrame x :=
    fun x hx => hfrall x (by rw [hfr]; exact List.mem_cons_of_mem _ hx)
  have hacc : pushAll none (extraOf v.opt_extra_info) = v.opt_extra_info := by
    cases ho : v.opt_extra_info with
    | none => simp [extraOf, pushAll_none_nil]
    | some lx =>
      have hlx : lx ≠ [] := by
        rcases hoei with h1 | h1
        · rw [ho] at h1; cases h1
        · rw [ho] at h1; simpa [extraOf] using h1
      simp [extraOf, pushAll_none lx hlx]
  rw [linesOf_showSuppression v hname.1.2.2.1 (showType_no_nl _ hkind)
      (fun e he' => (hextra e he').1.2.2.1)
      (fun f hf' => showFrame_no_nl f (hfrall f hf'))]
  have hmm : (v.frames.map showFrame).map (fun l => lit "   " ++ l ++ ['\n'])
      = v.frames.map (fun f => lit "   " ++ showFrame f ++ ['\n']) := by
    rw [List.map_map]
    rfl
  rw [hmm, hfr, List.map_cons,
    show (((extraOf v.opt_extra_info).map (fun e => lit "   " ++ e ++ ['\n'])
        ++ ((lit "   " ++ showFrame f0 ++ ['\n'])
          :: frest.map (fun f => lit "   " ++ showFrame f ++ ['\n']))) ++ [lit "\x7d"])
      = ((extraOf v.opt_extra_info).map (fun e => lit "   " ++ e ++ ['\n'])
          ++ ((lit "   " ++ showFrame f0 ++ ['\n'])
            :: (frest.map (fun f => lit "   " ++ showFrame f ++ ['\n']) ++ [lit "\x7d"])))
      from by simp]
  have hloop : parseLoop [] BeforeOpeningBrace 0
      ((lit "\x7b" ++ ['\n'])
        :: (lit "   " ++ v.name ++ ['\n'])
        :: (lit "   " ++ showSuppressionType v.type_ ++ ['\n'])
        :: ((extraOf v.opt_extra_info).map (fun e => lit "   " ++ e ++ ['\n'])
            ++ ((lit "   " ++ showFrame f0 ++ ['\n'])
              :: (frest.map (fun f => lit "   " ++ showFrame f ++ ['\n']) ++ [lit "\x7d"]))))
      = .ok ([⟨v.name, reparseKind v.type_, v.opt_extra_info, f0 :: frest⟩],
          BeforeOpeningBrace) := by
    rw [parseLoop_cons_ok (stepLine_openBrace (by decide)),
      parseLoop_cons_ok (stepLine_nameLine (trim_pad_line _ hname.1.2.1 hname.1.1) hname),
      parseLoop_cons_ok (stepLine_typeLine
        (trim_pad_line _ (showType_trim _ hkind) (showType_nonempty _)) hkind),
      parseLoop_extraBlock _ _ _ _ _ hextra,
      parseLoop_cons_ok (stepLine_firstFrame (trim_frameLine f0 hf0) hf0 hf0fun),
      parseLoop_frameBlock _ _ _ _ _ hfrest,
      parseLoop_cons_ok (stepLine_closeBrace (by decide)),
      parseLoop]
    simp only [List.map_cons, List.map_nil, List.nil_append]
    rw [hacc, resolveType_toolOf_catOf _ hkind,
      show ([f0] ++ frest : List Frame) = f0 :: frest from rfl]
  rw [parse, hloop]
  rfl

/-! ## The parsed-names invariant -/

lemma stepLine_names {sups : List Suppression} {st : ParseState} {n : Nat} {l : Str}
    {sups' : List Suppression} {st' : ParseState}
    (hstep : stepLine sups st n l = .ok (sups', st'))
    (hsups : ∀ s ∈ sups, goodName s.name) (hst : stateNames st) :
    (∀ s ∈ sups', goodName s.name) ∧ stateNames st' := by
  simp only [stepLine] at hstep
  split at hstep
  · obtain ⟨h1, h2⟩ := by simpa using hstep
    subst h1; subst h2
    exact ⟨hsups, hst⟩
  · rename_i hskip
    split at hstep
    · -- BeforeOpeningBrace
      split at hstep
      · obtain ⟨h1, h2⟩ := by simpa using hstep
        subst h1; subst h2
        exact ⟨hsups, trivial⟩
      · split at hstep <;> cases hstep
    · -- AfterOpeningBrace
      split at hstep
      · obtain ⟨h1, h2⟩ := by simpa using hstep
        subst h1; subst h2
        exact ⟨hsups, trivial⟩
      · split at hstep
        · cases hstep
        · rename_i hnb hbrace
          obtain ⟨h1, h2⟩ := by simpa using hstep
          subst h1; subst h2
          refine ⟨hsups, ?_, by simpa using hbrace⟩
          intro hemp
          exact hskip (by simp [hemp])
    · -- HaveName
      rename_i obl name
      split at hstep
      · cases hstep
      · obtain ⟨h1, h2⟩ := by simpa using hstep
        subst h1; subst h2
        exact ⟨hsups, hst⟩
    · -- HaveSuppressionType
      rename_i obl name tns cat acc
      split at hstep
      · obtain ⟨h1, h2⟩ := by simpa using hstep
        subst h1; subst h2
        exact ⟨hsups, hst⟩
      · split at hstep
        · obtain ⟨h1, h2⟩ := by simpa using hstep
          subst h1; subst h2
          exact ⟨hsups, hst⟩
        · split at hstep
          · obtain ⟨h1, h2⟩ := by simpa using hstep
            subst h1; subst h2
            exact ⟨hsups, hst⟩
          · split at hstep
            · obtain ⟨h1, h2⟩ := by simpa using hstep
              subst h1; subst h2
              exact ⟨hsups, trivial⟩
            · obtain ⟨h1, h2⟩ := by simpa using hstep
              subst h1; subst h2
              exact ⟨hsups, hst⟩
    · -- HaveOptExtraInfo
      rename_i obl name tns cat acc frames
      split at hstep
      · obtain ⟨h1, h2⟩ := by simpa using hstep
        subst h1; subst h2
        exact ⟨hsups, hst⟩
      · split at hstep
        · obtain ⟨h1, h2⟩ := by simpa using hstep
          subst h1; subst h2
          exact ⟨hsups, hst⟩
        · split at hstep
          · obtain ⟨h1, h2⟩ := by simpa using hstep
            subst h1; subst h2
            exact ⟨hsups, hst⟩
          · split at hstep
            · obtain ⟨h1, h2⟩ := by simpa using hstep
              subst h1; subst h2
              refine ⟨?_, trivial⟩
              intro s hs
              rw [List.mem_append] at hs
              rcases hs with hs | hs
              · exact hsups s hs
              · obtain ⟨tn, -, rfl⟩ := List.mem_map.mp hs
                exact hst
            · cases hstep

lemma parseLoop_names : ∀ (ls : List Str) (sups : List Suppression) (st : ParseState)
    (n : Nat) (res : List Suppression × ParseState),
    parseLoop sups st n ls = .ok res → (∀ s ∈ sups, goodName s.name) → stateNames st →
    ∀ s ∈ res.1, goodName s.name := by
  intro ls
  induction ls with
  | nil =>
    intro sups st n res h hs hst
    rw [parseLoop] at h
    injection h with h2
    subst h2
    simpa using hs
  | cons l rest ih =>
    intro sups st n res h hs hst
    rw [parseLoop] at h
    cases hstep : stepLine sups st (n + 1) l with
    | error e => rw [hstep] at h; cases h
    | ok p =>
      obtain ⟨ps, pst⟩ := p
      rw [hstep] at h
      obtain ⟨h1, h2⟩ := stepLine_names hstep hs hst
      exact ih _ _ _ _ h h1 h2

/-! ## Claim theorems -/

/-- Claim C1, counterexample: render-then-reparse does not reproduce every
`Suppression`. A record with an empty frame list reparses to zero records;
a record whose first frame is a function matcher reparses with an object
matcher instead; an `OtherType` record reparses with `?` folded into the
tool name. None of these fall under the claim's sole stated exception. -/
theorem C1_counterexample :
    parse (linesOf (showSuppression ⟨lit "nm", MemcheckLeak, none, []⟩)) = .ok ⟨[]⟩
    ∧ parse (linesOf (showSuppression
        ⟨lit "nm", MemcheckLeak, none, [FunFrame (lit "f")]⟩))
      = .ok ⟨[⟨lit "nm", MemcheckLeak, none, [ObjFrame (lit "f")]⟩]⟩
    ∧ parse (linesOf (showSuppression
        ⟨lit "nm", OtherType (lit "T") (lit "Cat"), none, [FrameWildcard]⟩))
      = .ok ⟨[⟨lit "nm", OtherType (lit "?T") (lit "Cat"), none, [FrameWildcard]⟩]⟩ :=
  ⟨by decide, by decide, by decide⟩

/-- Claim C1 as amended: for every `Suppression` whose free-text fields are
clean (see `RoundTripSafe`: trim-stable, newline-free, non-comment name and
extra lines, extra lines not mistakable for frames or the closing brace,
nonempty frames not starting with a function matcher, clean globs, and an
`OtherType` tool name free of comma/colon), rendering and re-parsing yields
exactly one record with identical name, extra info and frames, and a kind
identical for the seven Memcheck variants while `OtherType` keeps its
variant with the `?` marker folded into the re-parsed tool name. -/
theorem C1_render_reparse (v : Suppression) (h : RoundTripSafe v) :
    parse (linesOf (showSuppression v))
      = .ok ⟨[⟨v.name, reparseKind v.type_, v.opt_extra_info, v.frames⟩]⟩ :=
  renderParse v h

/-- Witness for C1 at a concrete record with every field populated. -/
theorem C1_render_reparse_witness :
    parse (linesOf (showSuppression ⟨lit "nm", MemcheckParam, some [lit "write(buf)"],
        [FrameWildcard, ObjFrame (lit "/usr/lib/*"), FunFrame (lit "f*")]⟩))
      = .ok ⟨[⟨lit "nm", MemcheckParam, some [lit "write(buf)"],
          [FrameWildcard, ObjFrame (lit "/usr/lib/*"), FunFrame (lit "f*")]⟩]⟩ :=
  C1_render_reparse _ (by decide)

/-- Claim C2, counterexample: a valid single-block input with one tool name
and an empty frame list parses successfully to zero records, not one. -/
theorem C2_counterexample :
    parse [lit "\x7b", lit "EmptyFrames", lit "Memcheck:Leak", lit "\x7d"] = .ok ⟨[]⟩
    ∧ (Suppressions.mk []).suppressions_.length = 0 :=
  ⟨by decide, rfl⟩

/-- Claim C2 as amended: in the `HaveKind` state a line that is exactly the
closing brace ends the block with zero frames but emits no record at all
(the block is silently discarded) before returning to `BeforeBlock`; a
valid single-block input with one tool name and an empty frame list hence
yields a collection of zero records. -/
theorem C2_zero_frames_discarded {sups : List Suppression} {obl n : Nat}
    {l name cat : Str} {tns : List Str} {acc : Option (List Str)}
    (htrim : trim l = lit "\x7d") :
    stepLine sups (HaveSuppressionType obl name tns cat acc) n l
      = .ok (sups, BeforeOpeningBrace)
    ∧ parse [lit "\x7b", lit "EmptyFrames", lit "Memcheck:Leak", lit "\x7d"]
      = .ok ⟨[]⟩ :=
  ⟨stepLine_closeNoFrames htrim, by decide⟩

/-- Witness for C2 at a concrete state and closing-brace line. -/
theorem C2_zero_frames_discarded_witness :
    stepLine [] (HaveSuppressionType 1 (lit "nm") [lit "Memcheck"] (lit "Leak") none) 4
        (lit "\x7d")
      = .ok ([], BeforeOpeningBrace)
    ∧ parse [lit "\x7b", lit "EmptyFrames", lit "Memcheck:Leak", lit "\x7d"]
      = .ok ⟨[]⟩ :=
  C2_zero_frames_discarded (by decide)

/-- Claim C3: a `fun:` line in the first frame position (the `HaveKind`
state) is built with the same construction as the `obj:` case and yields an
object-matcher frame holding the glob, whereas a `fun:` line in any later
position (the `HaveFrames` state) appends a function-matcher frame. -/
theorem C3_fun_first_frame (sups : List Suppression) (obl lineno : Nat)
    (name cat : Str) (tns : List Str) (acc : Option (List Str))
    (frames : List Frame) (l1 l2 : Str)
    (h1 : (lit "fun:").isPrefixOf (trim l1) = true)
    (h2 : (lit "fun:").isPrefixOf (trim l2) = true) :
    stepLine sups (HaveSuppressionType obl name tns cat acc) lineno l1
      = .ok (sups, HaveOptExtraInfo obl name tns cat acc
          [ObjFrame (trimLeft ((trim l1).drop 4))])
    ∧ stepLine sups (HaveOptExtraInfo obl name tns cat acc frames) lineno l2
      = .ok (sups, HaveOptExtraInfo obl name tns cat acc
          (frames ++ [FunFrame (trimLeft ((trim l2).drop 4))])) := by
  obtain ⟨rest1, hr1⟩ := List.isPrefixOf_iff_prefix.mp h1
  obtain ⟨rest2, hr2⟩ := List.isPrefixOf_iff_prefix.mp h2
  have heq1 : trim l1 = lit "fun:" ++ rest1 := hr1.symm
  have heq2 : trim l2 = lit "fun:" ++ rest2 := hr2.symm
  constructor
  · simp only [stepLine, heq1]
    rw [if_neg (skip_false (by simp) (by simp [List.isPrefixOf])),
      if_neg (by simp),
      if_neg (bool_not_true (by simp [List.isPrefixOf])),
      if_pos ( List.isPrefixOf_iff_prefix.mpr (List.prefix_append _ _))]
  · simp only [stepLine, heq2]
    rw [if_neg (skip_false (by simp) (by simp [List.isPrefixOf])),
      if_neg (by simp),
      if_neg (bool_not_true (by simp [List.isPrefixOf])),
      if_pos ( List.isPrefixOf_iff_prefix.mpr (List.prefix_append _ _))]

/-- Witness for C3 at concrete lines. -/
theorem C3_fun_first_frame_witness :
    stepLine [] (HaveSuppressionType 1 (lit "nm") [lit "Memcheck"] (lit "Leak") none) 4
        (lit "fun:alpha")
      = .ok ([], HaveOptExtraInfo 1 (lit "nm") [lit "Memcheck"] (lit "Leak") none
          [ObjFrame (lit "alpha")])
    ∧ stepLine [] (HaveOptExtraInfo 1 (lit "nm") [lit "Memcheck"] (lit "Leak") none
          [FrameWildcard]) 5 (lit "fun:beta")
      = .ok ([], HaveOptExtraInfo 1 (lit "nm") [lit "Memcheck"] (lit "Leak") none
          [FrameWildcard, FunFrame (lit "beta")]) :=
  C3_fun_first_frame [] 1 4 (lit "nm") (lit "Leak") [lit "Memcheck"] none
    [FrameWildcard] (lit "fun:alpha") (lit "fun:beta") (by decide) (by decide)

/-- Claim C4, counterexample: a block listing `ToolA,ToolB:Cat` whose frame
list is empty ends in the `HaveKind` state and emits zero records, not two,
so the expansion does not happen on every block end. -/
theorem C4_counterexample :
    parse [lit "\x7b", lit "nm", lit "ToolA,ToolB:Cat", lit "\x7d"] = .ok ⟨[]⟩ := by
  decide

/-- Claim C4 as amended: the type line's text before the first colon is
comma-split into the raw tool names; on block end from the `HaveFrames`
state one `Suppression` is emitted per raw tool name, in order, all sharing
the same name, extra info and frames, each kind resolved from its own tool
name (`OtherType` whenever the tool name is not exactly `Memcheck`); a
block listing `ToolA,ToolB:Cat` with at least one frame yields exactly two
records in the order `ToolA` then `ToolB`. -/
theorem C4_block_end_expansion (sups : List Suppression) (obl lineno : Nat)
    (name cat bef aft : Str) (tns : List Str) (acc : Option (List Str))
    (frames : List Frame) (lt lc : Str)
    (htype : splitFirstColon (trim lt) = some (bef, aft))
    (hne : trim lt ≠ []) (hhash : (lit "#").isPrefixOf (trim lt) = false)
    (hclose : trim lc = lit "\x7d") :
    stepLine sups (HaveName obl name) lineno lt
      = .ok (sups, HaveSuppressionType obl name (splitComma bef) aft none)
    ∧ stepLine sups (HaveOptExtraInfo obl name tns cat acc frames) lineno lc
      = .ok (sups ++ tns.map (fun tool_name =>
          ⟨name, resolveType tool_name cat, acc, frames⟩), BeforeOpeningBrace)
    ∧ (∀ tn, tn ≠ lit "Memcheck" → resolveType tn cat = OtherType tn cat)
    ∧ parse [lit "\x7b", lit "nm", lit "ToolA,ToolB:Cat", lit "...", lit "\x7d"]
      = .ok ⟨[⟨lit "nm", OtherType (lit "ToolA") (lit "Cat"), none, [FrameWildcard]⟩,
              ⟨lit "nm", OtherType (lit "ToolB") (lit "Cat"), none, [FrameWildcard]⟩]⟩ := by
  refine ⟨?_, stepLine_closeBrace hclose,
    fun tn htn => resolveType_not_memcheck tn cat htn, by decide⟩
  simp only [stepLine]
  rw [if_neg (skip_false hne hhash), htype]

/-- Witness for C4 at a concrete type line and closing line. -/
theorem C4_block_end_expansion_witness :
    stepLine [] (HaveName 1 (lit "nm")) 3 (lit "ToolA,ToolB:Cat")
      = .ok ([], HaveSuppressionType 1 (lit "nm")
          (splitComma (lit "ToolA,ToolB")) (lit "Cat") none)
    ∧ stepLine [] (HaveOptExtraInfo 1 (lit "nm") [lit "ToolA", lit "ToolB"] (lit "Cat")
          none [FrameWildcard]) 4 (lit "\x7d")
      = .ok ([⟨lit "nm", resolveType (lit "ToolA") (lit "Cat"), none, [FrameWildcard]⟩,
              ⟨lit "nm", resolveType (lit "ToolB") (lit "Cat"), none, [FrameWildcard]⟩],
          BeforeOpeningBrace)
    ∧ (∀ tn, tn ≠ lit "Memcheck" →
        resolveType tn (lit "Cat") = OtherType tn (lit "Cat"))
    ∧ parse [lit "\x7b", lit "nm", lit "ToolA,ToolB:Cat", lit "...", lit "\x7d"]
      = .ok ⟨[⟨lit "nm", OtherType (lit "ToolA") (lit "Cat"), none, [FrameWildcard]⟩,
              ⟨lit "nm", OtherType (lit "ToolB") (lit "Cat"), none, [FrameWildcard]⟩]⟩ :=
  C4_block_end_expansion [] 1 3 (lit "nm") (lit "Cat") (lit "ToolA,ToolB") (lit "Cat")
    [lit "ToolA", lit "ToolB"] none [FrameWildcard]
    (lit "ToolA,ToolB:Cat") (lit "\x7d")
    (by decide) (by decide) (by decide) (by decide)

/-- Claim C5: for the tool name exactly `Memcheck`, a category of the shape
`Addr` (resp. `Value`) followed by a remainder resolves to the
parameterized `MemcheckAddr n` (resp. `MemcheckValue n`) exactly when the
remainder parses as a non-negative integer `n`, and otherwise falls back to
`OtherType` without failing; in particular `Addr4` carries `4`, `Value8`
carries `8`, while `Addr` (empty remainder) and `Addrx` resolve to
`OtherType`. -/
theorem C5_addr_value_resolution (ds : Str) :
    (resolveType (lit "Memcheck") (lit "Addr" ++ ds)
      = (match from_str ds with
          | some n => MemcheckAddr n
          | none => OtherType (lit "Memcheck") (lit "Addr" ++ ds)))
    ∧ (resolveType (lit "Memcheck") (lit "Value" ++ ds)
      = (match from_str ds with
          | some n => MemcheckValue n
          | none => OtherType (lit "Memcheck") (lit "Value" ++ ds)))
    ∧ resolveType (lit "Memcheck") (lit "Addr4") = MemcheckAddr 4
    ∧ resolveType (lit "Memcheck") (lit "Value8") = MemcheckValue 8
    ∧ resolveType (lit "Memcheck") (lit "Addr") = OtherType (lit "Memcheck") (lit "Addr")
    ∧ resolveType (lit "Memcheck") (lit "Addrx")
      = OtherType (lit "Memcheck") (lit "Addrx")
    ∧ from_str (lit "4") = some 4
    ∧ from_str (lit "") = none
    ∧ from_str (lit "x") = none := by
  refine ⟨?_, ?_, by decide, by decide, by decide, by decide, by decide, by decide,
    by decide⟩
  · rw [resolveType, if_pos rfl,
      if_pos ( List.isPrefixOf_iff_prefix.mpr (List.prefix_append _ _)),
      show ((lit "Addr" ++ ds).drop 4) = ds from List.drop_left (lit "Addr") ds]
    cases from_str ds <;> rfl
  · rw [resolveType, if_pos rfl, if_neg (bool_not_true (by simp [List.isPrefixOf])),
      if_neg (by simp), if_neg (by simp), if_neg (by simp), if_neg (by simp),
      if_neg (by simp),
      if_pos ( List.isPrefixOf_iff_prefix.mpr (List.prefix_append _ _)),
      show ((lit "Value" ++ ds).drop 5) = ds from List.drop_left (lit "Value") ds]
    cases from_str ds <;> rfl

/-- Claim C6: when the input is exhausted in a state other than
`BeforeBlock`, `parse` fails with a diagnostic carrying the line number of
the block's opening brace (the `AfterOpen` state is created carrying
exactly the line number of the `{` line), with the anonymous EOF message
before the name is known and the message naming the suppression afterwards;
exhaustion in `BeforeBlock` is success. -/
theorem C6_eof_diagnostics (ls : List Str) (sups : List Suppression) (st : ParseState)
    (h : parseLoop [] BeforeOpeningBrace 0 ls = .ok (sups, st)) :
    (st = BeforeOpeningBrace → parse ls = .ok ⟨sups⟩)
    ∧ (∀ obl, st = AfterOpeningBrace obl →
        parse ls = .error ⟨obl,
          lit "unexpectedly encountered EOF while parsing a suppression"⟩)
    ∧ (∀ obl name, st = HaveName obl name →
        parse ls = .error ⟨obl,
          lit "unexpectedly encountered EOF while parsing the suppression named \x27"
            ++ name ++ lit "\x27"⟩)
    ∧ (∀ obl name tns cat acc, st = HaveSuppressionType obl name tns cat acc →
        parse ls = .error ⟨obl,
          lit "unexpectedly encountered EOF while parsing the suppression named \x27"
            ++ name ++ lit "\x27"⟩)
    ∧ (∀ obl name tns cat acc frames, st = HaveOptExtraInfo obl name tns cat acc frames →
        parse ls = .error ⟨obl,
          lit "unexpectedly encountered EOF while parsing the suppression named \x27"
            ++ name ++ lit "\x27"⟩)
    ∧ (∀ (sups0 : List Suppression) (n : Nat) (l : Str), trim l = lit "\x7b" →
        stepLine sups0 BeforeOpeningBrace n l = .ok (sups0, AfterOpeningBrace n)) := by
  refine ⟨?_, ?_, ?_, ?_, ?_, fun sups0 n l hl => stepLine_openBrace hl⟩
  · intro hst
    subst hst
    rw [parse, h]
    rfl
  · intro obl hst
    subst hst
    rw [parse, h]
    rfl
  · intro obl name hst
    subst hst
    rw [parse, h]
    rfl
  · intro obl name tns cat acc hst
    subst hst
    rw [parse, h]
    rfl
  · intro obl name tns cat acc frames hst
    subst hst
    rw [parse, h]
    rfl

/-- Witness for C6: an unterminated block fails at the opening-brace line
naming the suppression. -/
theorem C6_eof_diagnostics_witness :
    parse [lit "\x7b", lit "Name", lit "Memcheck:Leak"]
      = .error ⟨1,
          lit "unexpectedly encountered EOF while parsing the suppression named \x27"
            ++ lit "Name" ++ lit "\x27"⟩ :=
  (C6_eof_diagnostics [lit "\x7b", lit "Name", lit "Memcheck:Leak"] []
      (HaveSuppressionType 1 (lit "Name") [lit "Memcheck"] (lit "Leak") none)
      (by decide)).2.2.2.1 1 (lit "Name") [lit "Memcheck"] (lit "Leak") none rfl

/-- Claim C7: rendering is total by construction and produces the canonical
block: for newline-free fields the rendered suppression splits into an
opening brace line, one line indented by exactly three spaces for the name,
the rendered kind, each extra-info line and each rendered frame in order,
then the closing brace; `OtherType` renders with a literal leading `?`, the
fixed Memcheck categories as `Memcheck:<Name>`, and the frames as `...`,
`obj:<glob>`, `fun:<glob>`. -/
theorem C7_renderer_canonical (v : Suppression) (g t r : Str) (n : Nat)
    (hn : '\n' ∉ v.name) (hk : '\n' ∉ showSuppressionType v.type_)
    (he : ∀ e ∈ extraOf v.opt_extra_info, '\n' ∉ e)
    (hf : ∀ f ∈ v.frames, '\n' ∉ showFrame f) :
    linesOf (showSuppression v)
      = (lit "\x7b" ++ ['\n'])
        :: (lit "   " ++ v.name ++ ['\n'])
        :: (lit "   " ++ showSuppressionType v.type_ ++ ['\n'])
        :: ((extraOf v.opt_extra_info).map (fun e => lit "   " ++ e ++ ['\n'])
            ++ (v.frames.map showFrame).map (fun l => lit "   " ++ l ++ ['\n'])
            ++ [lit "\x7d"])
    ∧ showFrame FrameWildcard = lit "..."
    ∧ showFrame (ObjFrame g) = lit "obj:" ++ g
    ∧ showFrame (FunFrame g) = lit "fun:" ++ g
    ∧ showSuppressionType (OtherType t r) = lit "?" ++ t ++ lit ":" ++ r
    ∧ showSuppressionType (MemcheckAddr n) = lit "Memcheck:Addr" ++ toDecimal n
    ∧ showSuppressionType (MemcheckValue n) = lit "Memcheck:Value" ++ toDecimal n
    ∧ showSuppressionType MemcheckCond = lit "Memcheck:Cond"
    ∧ showSuppressionType MemcheckFree = lit "Memcheck:Free"
    ∧ showSuppressionType MemcheckLeak = lit "Memcheck:Leak"
    ∧ showSuppressionType MemcheckOverlap = lit "Memcheck:Overlap"
    ∧ showSuppressionType MemcheckParam = lit "Memcheck:Param" :=
  ⟨linesOf_showSuppression v hn hk he hf, rfl, rfl, rfl,
    by simp [showSuppressionType, lit], rfl, rfl, rfl, rfl, rfl, rfl, rfl⟩

/-- Witness for C7 at a concrete record. -/
theorem C7_renderer_canonical_witness :
    linesOf (showSuppression ⟨lit "nm", MemcheckParam, some [lit "write(buf)"],
        [FrameWildcard, ObjFrame (lit "/usr/*")]⟩)
      = (lit "\x7b" ++ ['\n'])
        :: (lit "   " ++ lit "nm" ++ ['\n'])
        :: (lit "   " ++ showSuppressionType MemcheckParam ++ ['\n'])
        :: ((extraOf (some [lit "write(buf)"])).map (fun e => lit "   " ++ e ++ ['\n'])
            ++ (([FrameWildcard, ObjFrame (lit "/usr/*")].map showFrame).map
                (fun l => lit "   " ++ l ++ ['\n']))
            ++ [lit "\x7d"]) :=
  (C7_renderer_canonical ⟨lit "nm", MemcheckParam, some [lit "write(buf)"],
      [FrameWildcard, ObjFrame (lit "/usr/*")]⟩ [] [] [] 0
    (by decide) (by decide) (by decide) (by decide)).1

/-- Claim C8: appending a collection onto another concatenates the record
lists, so iterating the result yields the first collection's records in
their original order followed by the second's, none removed, reordered or
modified. -/
theorem C8_append_all_order (a b : Suppressions) :
    suppressions (add_all a b) = suppressions a ++ suppressions b
    ∧ (suppressions (add_all a b)).length
      = (suppressions a).length + (suppressions b).length
    ∧ (∀ i, i < (suppressions a).length →
        (suppressions (add_all a b))[i]? = (suppressions a)[i]?)
    ∧ (∀ j, (suppressions (add_all a b))[(suppressions a).length + j]?
        = (suppressions b)[j]?) := by
  refine ⟨rfl, by simp [suppressions, add_all], ?_, ?_⟩
  · intro i hi
    exact List.getElem?_append_left hi
  · intro j
    show (suppressions a ++ suppressions b)[(suppressions a).length + j]? = _
    rw [List.getElem?_append_right (by omega)]
    congr 1
    omega

/-- Witness for C8 at concrete collections. -/
theorem C8_append_all_order_witness :
    suppressions (add_all ⟨[⟨lit "a", MemcheckLeak, none, []⟩]⟩
        ⟨[⟨lit "b", MemcheckCond, none, []⟩]⟩)
      = [⟨lit "a", MemcheckLeak, none, []⟩, ⟨lit "b", MemcheckCond, none, []⟩]
    ∧ (suppressions (add_all ⟨[⟨lit "a", MemcheckLeak, none, []⟩]⟩
        ⟨[⟨lit "b", MemcheckCond, none, []⟩]⟩))[0]?
      = some ⟨lit "a", MemcheckLeak, none, []⟩
    ∧ (suppressions (add_all ⟨[⟨lit "a", MemcheckLeak, none, []⟩]⟩
        ⟨[⟨lit "b", MemcheckCond, none, []⟩]⟩))[1 + 0]?
      = some ⟨lit "b", MemcheckCond, none, []⟩ :=
  ⟨(C8_append_all_order ⟨[⟨lit "a", MemcheckLeak, none, []⟩]⟩
      ⟨[⟨lit "b", MemcheckCond, none, []⟩]⟩).1,
    ((C8_append_all_order ⟨[⟨lit "a", MemcheckLeak, none, []⟩]⟩
      ⟨[⟨lit "b", MemcheckCond, none, []⟩]⟩).2.2.1 0 (by decide)).trans (by decide),
    ((C8_append_all_order ⟨[⟨lit "a", MemcheckLeak, none, []⟩]⟩
      ⟨[⟨lit "b", MemcheckCond, none, []⟩]⟩).2.2.2 0).trans (by decide)⟩

/-- Claim C9: every record in a successfully parsed collection has a
nonempty name containing no closing brace. -/
theorem C9_parsed_names (ls : List Str) (c : Suppressions) (h : parse ls = .ok c) :
    ∀ s ∈ c.suppressions_, s.name ≠ [] ∧ s.name.contains '\x7d' = false := by
  rw [parse] at h
  cases hl : parseLoop [] BeforeOpeningBrace 0 ls with
  | error e => rw [hl] at h; cases h
  | ok p =>
    obtain ⟨ps, pst⟩ := p
    rw [hl] at h
    have h' : (match eofCheck pst with
        | some e => Except.error e
        | none => (Except.ok ⟨ps⟩ : Except ParseError Suppressions)) = Except.ok c := h
    cases he : eofCheck pst with
    | some e => rw [he] at h'; cases h'
    | none =>
      rw [he] at h'
      injection h' with h2
      intro s hs
      exact parseLoop_names ls [] BeforeOpeningBrace 0 (ps, pst) hl
        (by simp) trivial s (by rw [← h2] at hs; exact hs)

/-- Witness for C9 at a concrete parse. -/
theorem C9_parsed_names_witness :
    (lit "nm" : Str) ≠ [] ∧ (lit "nm" : Str).contains '\x7d' = false := by
  have hc := C9_parsed_names [lit "\x7b", lit "nm", lit "Memcheck:Leak", lit "...",
      lit "\x7d"]
    ⟨[⟨lit "nm", MemcheckLeak, none, [FrameWildcard]⟩]⟩ (by decide)
  exact hc ⟨lit "nm", MemcheckLeak, none, [FrameWildcard]⟩ (by simp)

/-- Claim C10: the raw category is the exact substring of the trimmed type
line after the first colon, with no further trimming, and recognition is by
exact match; `Memcheck: Leak` (whitespace after the colon) therefore
resolves to `OtherType` with raw category `" Leak"` rather than the fixed
Leak category. -/
theorem C10_raw_category_exact (bef aft l : Str) (sups : List Suppression)
    (obl lineno : Nat) (name : Str)
    (hb : ':' ∉ bef)
    (htrim : trim l = bef ++ ':' :: aft)
    (hne : trim l ≠ [])
    (hhash : (lit "#").isPrefixOf (trim l) = false) :
    splitFirstColon (bef ++ ':' :: aft) = some (bef, aft)
    ∧ stepLine sups (HaveName obl name) lineno l
        = .ok (sups, HaveSuppressionType obl name (splitComma bef) aft none)
    ∧ resolveType (lit "Memcheck") (lit " Leak")
        = OtherType (lit "Memcheck") (lit " Leak")
    ∧ parse [lit "\x7b", lit "nm", lit "Memcheck: Leak", lit "...", lit "\x7d"]
        = .ok ⟨[⟨lit "nm", OtherType (lit "Memcheck") (lit " Leak"), none,
            [FrameWildcard]⟩]⟩ := by
  refine ⟨splitFirstColon_append bef aft hb, ?_, by decide, by decide⟩
  simp only [stepLine]
  rw [if_neg (skip_false hne hhash), htrim, splitFirstColon_append bef aft hb]

/-- Witness for C10 at the concrete `Memcheck: Leak` type line. -/
theorem C10_raw_category_exact_witness :
    splitFirstColon (lit "Memcheck" ++ ':' :: lit " Leak")
      = some (lit "Memcheck", lit " Leak")
    ∧ stepLine [] (HaveName 1 (lit "nm")) 3 (lit "Memcheck: Leak")
        = .ok ([], HaveSuppressionType 1 (lit "nm")
            (splitComma (lit "Memcheck")) (lit " Leak") none)
    ∧ resolveType (lit "Memcheck") (lit " Leak")
        = OtherType (lit "Memcheck") (lit " Leak")
    ∧ parse [lit "\x7b", lit "nm", lit "Memcheck: Leak", lit "...", lit "\x7d"]
        = .ok ⟨[⟨lit "nm", OtherType (lit "Memcheck") (lit " Leak"), none,
            [FrameWildcard]⟩]⟩ :=
  C10_raw_category_exact (lit "Memcheck") (lit " Leak") (lit "Memcheck: Leak") [] 1 3
    (lit "nm") (by decide) (by decide) (by decide) (by decide)
